import Mathlib

/-!
Shallow embedding of the nextcut-backend-v2 queueing services.

The relational store (Prisma schema: User, Barber, Queue, ServiceHistory) is
modelled as a `DBState` holding the four tables as lists in insertion order,
with autoincrement counters for the primary keys.  Each service function of
`src/services/userServices.ts` and `src/services/barberServices.ts` becomes a
Lean function over `DBState`; the `prisma.$transaction` blocks become a single
functional update (all-or-nothing), thrown errors become `Except.error`, and
every service's surrounding `try/catch` (which logs and rethrows one generic
`Error`) becomes a `Core` function plus a wrapper collapsing any error to the
catch block's message.  Timestamps (`enteredAt`, DB `now()`) are `Nat` values
passed in explicitly at each `join`.
-/

namespace NextCut

/-- A row of the `User` model: id, name, phoneNumber, and the mirrored queue
membership flags `inQueue` / `queuedBarberId`. -/
structure UserRec where
  id : Nat
  name : String
  phoneNumber : String
  inQueue : Bool
  queuedBarberId : Option Nat
deriving DecidableEq, Repr

/-- A row of the `Barber` model (password hash omitted: authentication is out
of scope of the queue engine). -/
structure BarberRec where
  id : Nat
  name : String
  username : String
  lat : Rat
  long : Rat
deriving DecidableEq, Repr

/-- A row of the `Queue` model: one live queue entry. -/
structure QueueEntry where
  id : Nat
  enteredAt : Nat
  service : String
  barberId : Nat
  userId : Nat
deriving DecidableEq, Repr

/-- A row of the `ServiceHistory` model. -/
structure HistoryRec where
  id : Nat
  barberId : Nat
  userId : Nat
  service : String
  servedAt : Nat
deriving DecidableEq, Repr

/-- The whole relational store: the four tables in insertion order plus the
autoincrement counters. -/
structure DBState where
  users : List UserRec
  barbers : List BarberRec
  entries : List QueueEntry
  history : List HistoryRec
  nextUserId : Nat
  nextBarberId : Nat
  nextEntryId : Nat
deriving DecidableEq, Repr

/-- The empty database (autoincrement ids start at 1). -/
def initState : DBState :=
  { users := [], barbers := [], entries := [], history := [],
    nextUserId := 1, nextBarberId := 1, nextEntryId := 1 }

/-- `prisma.user.findUnique({ where: { id } })`. -/
def findUser (s : DBState) (id : Nat) : Option UserRec :=
  s.users.find? (fun u => u.id == id)

/-- `prisma.barber.findUnique({ where: { id } })`. -/
def findBarber (s : DBState) (id : Nat) : Option BarberRec :=
  s.barbers.find? (fun b => b.id == id)

/-- The `validServices` array of `joinQueue`. -/
def validServices : List String := ["haircut", "beard", "haircut+beard"]

/-- One `prisma.user.update({ where: { id = userId }, data: {inQueue, queuedBarberId} })`
applied to a single row. -/
def updFlag (userId : Nat) (inQ : Bool) (qb : Option Nat) (u : UserRec) : UserRec :=
  if u.id = userId then { u with inQueue := inQ, queuedBarberId := qb } else u

/-- The same update applied over the whole `User` table. -/
def setFlags (users : List UserRec) (userId : Nat) (inQ : Bool) (qb : Option Nat) :
    List UserRec :=
  users.map (updFlag userId inQ qb)

/-- `createUser` of userServices.ts: inserts a user row (subject to the unique
constraint on phoneNumber); `inQueue`/`queuedBarberId` take their schema
defaults `false`/`null`. -/
def createUser (name phoneNumber : String) (s : DBState) :
    Except String UserRec × DBState :=
  if s.users.any (fun u => u.phoneNumber == phoneNumber) then
    (.error "Unique constraint failed on phoneNumber", s)
  else
    let u : UserRec :=
      { id := s.nextUserId, name := name, phoneNumber := phoneNumber,
        inQueue := false, queuedBarberId := none }
    (.ok u, { s with users := s.users ++ [u], nextUserId := s.nextUserId + 1 })

/-- `createBarber` of barberServices.ts: inserts a barber row (unique
constraint on username). -/
def createBarber (name username : String) (lat long : Rat) (s : DBState) :
    Except String BarberRec × DBState :=
  if s.barbers.any (fun b => b.username == username) then
    (.error "Unique constraint failed on username", s)
  else
    let b : BarberRec :=
      { id := s.nextBarberId, name := name, username := username,
        lat := lat, long := long }
    (.ok b, { s with barbers := s.barbers ++ [b], nextBarberId := s.nextBarberId + 1 })

/-- The row `prisma.queue.create` inserts inside `joinQueue`'s transaction:
the next autoincrement id and `enteredAt = now`. -/
def joinEntry (barberId userId : Nat) (service : String) (now : Nat)
    (s : DBState) : QueueEntry :=
  { id := s.nextEntryId, enteredAt := now, service := service,
    barberId := barberId, userId := userId }

/-- The state committed by `joinQueue`'s four-step transaction: delete every
queue row of this user, reset the user's flags, append the new entry, then set
the flags to the target barber. -/
def joinedState (barberId userId : Nat) (service : String) (now : Nat)
    (s : DBState) : DBState :=
  { s with
    entries := s.entries.filter (fun e => e.userId != userId) ++
      [joinEntry barberId userId service now s],
    users := setFlags (setFlags s.users userId false none) userId
      true (some barberId),
    nextEntryId := s.nextEntryId + 1 }

/-- The body of `joinQueue` of userServices.ts before its catch block: check
the barber exists, validate the service, then run the four-step
`prisma.$transaction`.  The transaction aborts as a whole (state unchanged)
when its `user.update` finds no user row. -/
def joinQueueCore (barberId userId : Nat) (service : String) (now : Nat)
    (s : DBState) : Except String QueueEntry × DBState :=
  match findBarber s barberId with
  | none => (.error "Barber not found", s)
  | some _ =>
    if service ∈ validServices then
      match findUser s userId with
      | none => (.error "Record to update not found", s)
      | some _ =>
        (.ok (joinEntry barberId userId service now s),
         joinedState barberId userId service now s)
    else (.error "Invalid service type", s)

/-- `joinQueue` as exported: its catch block rethrows every failure as the one
generic `Error("Failed to join queue")`. -/
def joinQueue (barberId userId : Nat) (service : String) (now : Nat)
    (s : DBState) : Except String QueueEntry × DBState :=
  ((joinQueueCore barberId userId service now s).1.mapError
    (fun _ => "Failed to join queue"),
   (joinQueueCore barberId userId service now s).2)

/-- The `data` payload of a successful `removeFromQueue`. -/
structure RemovedData where
  barberId : Nat
  barberName : String
deriving DecidableEq, Repr

/-- The `{success, message, data}` result shape of `removeFromQueue`. -/
structure RemoveResult where
  success : Bool
  message : String
  data : Option RemovedData
deriving DecidableEq, Repr

/-- The state committed by `removeFromQueue`'s transaction: delete the user's
queue row and clear the user's flags. -/
def leftState (userId : Nat) (s : DBState) : DBState :=
  { s with entries := s.entries.filter (fun e2 => e2.userId != userId),
           users := setFlags s.users userId false none }

/-- The body of `removeFromQueue` of userServices.ts before its catch block:
look up the user's queue entry (with its barber relation); if absent return
the benign `success: false` result; otherwise delete the entry and clear the
user's flags in one transaction. -/
def removeFromQueueCore (userId : Nat) (s : DBState) :
    Except String RemoveResult × DBState :=
  match s.entries.find? (fun e => e.userId == userId) with
  | none =>
    (.ok { success := false, message := "User is not in any queue", data := none }, s)
  | some e =>
    match findBarber s e.barberId with
    | none => (.error "Relation barber not found", s)
    | some b =>
      match findUser s userId with
      | none => (.error "Record to update not found", s)
      | some _ =>
        (.ok { success := true, message := "Successfully removed from queue",
               data := some { barberId := e.barberId, barberName := b.name } },
         leftState userId s)

/-- `removeFromQueue` as exported (catch block collapses errors). -/
def removeFromQueue (userId : Nat) (s : DBState) :
    Except String RemoveResult × DBState :=
  ((removeFromQueueCore userId s).1.mapError
    (fun _ => "Failed to remove from queue"),
   (removeFromQueueCore userId s).2)

/-- The `data` payload of a successful operator removal. -/
structure RemovedUserData where
  userId : Nat
  userName : String
deriving DecidableEq, Repr

/-- The `{success, message, data}` result shape of `removeUserFromQueue`. -/
structure BarberRemoveResult where
  success : Bool
  message : String
  data : Option RemovedUserData
deriving DecidableEq, Repr

/-- The state committed by `removeUserFromQueue`'s transaction: delete the
found entry by its primary key and clear the user's flags. -/
def brmState (entryId userId : Nat) (s : DBState) : DBState :=
  { s with entries := s.entries.filter (fun e2 => e2.id != entryId),
           users := setFlags s.users userId false none }

/-- The body of `removeUserFromQueue` of barberServices.ts before its catch
block: `findFirst` the entry matching both this barber and this user; if
absent return the `success: false` result; otherwise delete that entry (by its
id) and clear the user's flags in one transaction. -/
def removeUserFromQueueCore (barberId userId : Nat) (s : DBState) :
    Except String BarberRemoveResult × DBState :=
  match s.entries.find? (fun e => e.barberId == barberId && e.userId == userId) with
  | none =>
    (.ok { success := false, message := "User is not in this barber's queue",
            data := none }, s)
  | some e =>
    match findUser s userId with
    | none => (.error "Record to update not found", s)
    | some u =>
      (.ok { success := true,
             message := "Successfully removed " ++ u.name ++ " from queue",
             data := some { userId := u.id, userName := u.name } },
       brmState e.id userId s)

/-- `removeUserFromQueue` as exported (catch block collapses errors). -/
def removeUserFromQueue (barberId userId : Nat) (s : DBState) :
    Except String BarberRemoveResult × DBState :=
  ((removeUserFromQueueCore barberId userId s).1.mapError
    (fun _ => "Failed to remove user from queue"),
   (removeUserFromQueueCore barberId userId s).2)

/-- The result shape of `getUserQueueStatus` (the `barber: {id, name}` object
is split into its two fields; the not-in-queue shape has every projection
field null). -/
structure StatusResult where
  inQueue : Bool
  position : Option Nat
  barberId : Option Nat
  barberName : Option String
  estimatedWait : Option Nat
  service : Option String
  enteredAt : Option Nat
deriving DecidableEq, Repr

/-- The `{inQueue: false, ...}` result returned when the user has no live
queue membership. -/
def statusNotInQueue : StatusResult :=
  { inQueue := false, position := none, barberId := none, barberName := none,
    estimatedWait := none, service := none, enteredAt := none }

/-- The body of `getUserQueueStatus` of userServices.ts before its catch
block: find the user (throwing `"User not found"` when absent), return the
null projection unless both the `inQueue` flag and the `Queue` relation are
present, else count the same-barber entries with strictly earlier `enteredAt`
(the count uses the user's mirrored `queuedBarberId`; a null mirror matches no
row) and report position = count + 1 and estimatedWait = count * 15. -/
def getUserQueueStatusCore (userId : Nat) (s : DBState) :
    Except String StatusResult :=
  match findUser s userId with
  | none => .error "User not found"
  | some u =>
    match s.entries.find? (fun e => e.userId == userId) with
    | none => .ok statusNotInQueue
    | some e =>
      if u.inQueue then
        match findBarber s e.barberId with
        | none => .error "Relation barber not found"
        | some b =>
          let ahead := (s.entries.filter (fun e2 =>
            (match u.queuedBarberId with
             | some qb => e2.barberId == qb
             | none => false) && e2.enteredAt < e.enteredAt)).length
          .ok { inQueue := true, position := some (ahead + 1),
                barberId := some b.id, barberName := some b.name,
                estimatedWait := some (ahead * 15), service := some e.service,
                enteredAt := some e.enteredAt }
      else .ok statusNotInQueue

/-- `getUserQueueStatus` as exported (catch block collapses errors). -/
def getUserQueueStatus (userId : Nat) (s : DBState) : Except String StatusResult :=
  (getUserQueueStatusCore userId s).mapError (fun _ => "Failed to get queue status")

/-- One step of the stable insertion modelling `orderBy: { enteredAt: "asc" }`
over the insertion-ordered table: an element goes in front of the first
position whose key is not smaller, so rows with equal `enteredAt` keep their
table (primary key) order. -/
def qInsert (x : QueueEntry) : List QueueEntry → List QueueEntry
  | [] => [x]
  | y :: ys => if x.enteredAt ≤ y.enteredAt then x :: y :: ys else y :: qInsert x ys

/-- Stable sort by `enteredAt` of a list of queue rows. -/
def sortQueue : List QueueEntry → List QueueEntry
  | [] => []
  | x :: xs => qInsert x (sortQueue xs)

/-- The body of `getQueue` of barberServices.ts before its catch block: verify
the barber exists (throwing `"Barber not found"`), then return this barber's
entries ordered ascending by `enteredAt`. -/
def getQueueCore (barberId : Nat) (s : DBState) : Except String (List QueueEntry) :=
  match findBarber s barberId with
  | none => .error "Barber not found"
  | some _ => .ok (sortQueue (s.entries.filter (fun e => e.barberId == barberId)))

/-- `getQueue` as exported (catch block collapses errors). -/
def getQueue (barberId : Nat) (s : DBState) : Except String (List QueueEntry) :=
  (getQueueCore barberId s).mapError (fun _ => "Failed to get queue")

/-- The result contract of the query inside `getQueue`
(`prisma.queue.findMany` with a where on `barberId` and
`orderBy: enteredAt asc`): the barber exists, and the returned list is some
arrangement of exactly this barber's rows that is non-decreasing in
`enteredAt`.  The query has no secondary sort key, so the relative order of
rows with equal `enteredAt` is not specified: every list satisfying this
relation is a legal result.  The executable `getQueue` above resolves the
unspecified tie order by table (primary key) order; statements about what the
query guarantees are made against this relation instead. -/
def getQueueRel (barberId : Nat) (s : DBState) (l : List QueueEntry) : Prop :=
  (findBarber s barberId).isSome = true ∧
  l.Perm (s.entries.filter (fun e => e.barberId == barberId)) ∧
  l.Pairwise (fun a b => a.enteredAt ≤ b.enteredAt)

/-- The database states reachable from the empty store through the exported
mutating operations. -/
inductive Reachable : DBState → Prop where
  | init : Reachable initState
  | cuser (s : DBState) (name phone : String) :
      Reachable s → Reachable (createUser name phone s).2
  | cbarber (s : DBState) (name username : String) (lat long : Rat) :
      Reachable s → Reachable (createBarber name username lat long s).2
  | join (s : DBState) (barberId userId : Nat) (service : String) (now : Nat) :
      Reachable s → Reachable (joinQueue barberId userId service now s).2
  | leave (s : DBState) (userId : Nat) :
      Reachable s → Reachable (removeFromQueue userId s).2
  | brm (s : DBState) (barberId userId : Nat) :
      Reachable s → Reachable (removeUserFromQueue barberId userId s).2

/-- The count the code's position projection is built from: same-barber
entries with strictly earlier `enteredAt` than the given entry. -/
def earlierCount (s : DBState) (e : QueueEntry) : Nat :=
  (s.entries.filter (fun e2 =>
    e2.barberId == e.barberId && e2.enteredAt < e.enteredAt)).length

/-- Modelled from the spec's words for the position projection with its
tie-break clause: 1 plus the number of same-barber entries earlier than this
one, where earlier means strictly smaller `enteredAt`, or equal `enteredAt`
with a smaller entry id. -/
def specPosition (s : DBState) (e : QueueEntry) : Nat :=
  1 + (s.entries.filter (fun e2 =>
    e2.barberId == e.barberId &&
      (e2.enteredAt < e.enteredAt ||
        (e2.enteredAt == e.enteredAt && e2.id < e.id)))).length

/-- The state after a customer joins barber `x` and then barber `y`. -/
def rejoinState (x y u : Nat) (srv1 srv2 : String) (t1 t2 : Nat)
    (s : DBState) : DBState :=
  (joinQueue y u srv2 t2 (joinQueue x u srv1 t1 s).2).2

/-- The strict order the spec requires of an operator queue listing:
earlier `enteredAt` first, ties in ascending entry id. -/
def queueLt (a b : QueueEntry) : Prop :=
  a.enteredAt < b.enteredAt ∨ (a.enteredAt = b.enteredAt ∧ a.id < b.id)

instance queueLt_decidable : DecidableRel queueLt := fun a b =>
  inferInstanceAs (Decidable (a.enteredAt < b.enteredAt ∨
    (a.enteredAt = b.enteredAt ∧ a.id < b.id)))

/-- Well-formedness of a database state: primary keys are strictly increasing
and below their autoincrement counter, at most one live queue entry per
customer, foreign keys of queue rows resolve, and each user's mirrored
`inQueue` / `queuedBarberId` flags agree with the queue table. -/
structure WF (s : DBState) : Prop where
  entryIds : s.entries.Pairwise (fun a b => a.id < b.id)
  entryIdsLt : ∀ e ∈ s.entries, e.id < s.nextEntryId
  userIds : s.users.Pairwise (fun a b => a.id ≠ b.id)
  userIdsLt : ∀ u ∈ s.users, u.id < s.nextUserId
  barberIds : s.barbers.Pairwise (fun a b => a.id ≠ b.id)
  barberIdsLt : ∀ b ∈ s.barbers, b.id < s.nextBarberId
  entryUsers : s.entries.Pairwise (fun a b => a.userId ≠ b.userId)
  entryUserFK : ∀ e ∈ s.entries, ∃ u ∈ s.users, u.id = e.userId
  entryBarberFK : ∀ e ∈ s.entries, ∃ b ∈ s.barbers, b.id = e.barberId
  flags : ∀ u ∈ s.users,
    (u.inQueue = true ↔ ∃ e ∈ s.entries, e.userId = u.id) ∧
    (∀ e ∈ s.entries, e.userId = u.id → u.queuedBarberId = some e.barberId) ∧
    ((∀ e ∈ s.entries, e.userId ≠ u.id) → u.queuedBarberId = none)

/-- A one-barber store. -/
def sB1 : DBState := (createBarber "B1" "b1" 0 0 initState).2

/-- A two-barber store. -/
def sB12 : DBState := (createBarber "B2" "b2" 0 0 sB1).2

/-- One barber, one user. -/
def sU1 : DBState := (createUser "U1" "p1" sB1).2

/-- One barber, two users. -/
def sU2 : DBState := (createUser "U2" "p2" sU1).2

/-- Both users queued at barber 1 with colliding timestamps. -/
def sTie : DBState :=
  (joinQueue 1 2 "beard" 5 ((joinQueue 1 1 "haircut" 5 sU2).2)).2

/-- Two barbers, one user (for the re-join scenario). -/
def sTwo : DBState := (createUser "U1" "p1" sB12).2

/-- One barber and four queued users with increasing timestamps. -/
def sFour : DBState :=
  (joinQueue 1 4 "haircut" 4
    ((joinQueue 1 3 "haircut" 3
      ((joinQueue 1 2 "haircut" 2
        ((joinQueue 1 1 "haircut" 1
          ((createUser "U4" "p4"
            ((createUser "U3" "p3"
              ((createUser "U2" "p2"
                ((createUser "U1" "p1" sB1).2)).2)).2)).2)).2)).2)).2)).2

theorem updFlag_id (userId : Nat) (inQ : Bool) (qb : Option Nat) (u : UserRec) :
    (updFlag userId inQ qb u).id = u.id := by
  unfold updFlag; split <;> rfl

theorem mem_setFlags {users : List UserRec} {userId : Nat} {inQ : Bool}
    {qb : Option Nat} {v : UserRec} :
    v ∈ setFlags users userId inQ qb ↔
      ∃ u ∈ users, v = updFlag userId inQ qb u := by
  simp only [setFlags, List.mem_map, eq_comm]

theorem find?_key_map {f : UserRec → UserRec} (hf : ∀ u, (f u).id = u.id)
    (l : List UserRec) (k : Nat) :
    (l.map f).find? (fun u => u.id == k) = (l.find? (fun u => u.id == k)).map f := by
  induction l with
  | nil => rfl
  | cons u l ih =>
    by_cases h : u.id = k
    · simp [List.find?_cons, hf, h]
    · simp [List.find?_cons, hf, h, ih]

theorem findUser_setFlags (s : List UserRec) (userId : Nat) (inQ : Bool)
    (qb : Option Nat) (k : Nat) :
    (setFlags s userId inQ qb).find? (fun u => u.id == k) =
      (s.find? (fun u => u.id == k)).map (updFlag userId inQ qb) :=
  find?_key_map (updFlag_id userId inQ qb) s k

theorem pairwise_key_eq {α : Type} {κ : Type} (key : α → κ) {l : List α}
    (h : l.Pairwise (fun a b => key a ≠ key b)) {a b : α}
    (ha : a ∈ l) (hb : b ∈ l) (hk : key a = key b) : a = b := by
  induction l with
  | nil => cases ha
  | cons x l ih =>
    rcases List.pairwise_cons.mp h with ⟨hx, hl⟩
    rcases List.mem_cons.mp ha with ha1 | ha1 <;>
      rcases List.mem_cons.mp hb with hb1 | hb1
    · rw [ha1, hb1]
    · subst ha1; exact absurd hk (hx b hb1)
    · subst hb1; exact absurd hk.symm (hx a ha1)
    · exact ih hl ha1 hb1

theorem qInsert_mem {x y : QueueEntry} {l : List QueueEntry} :
    y ∈ qInsert x l ↔ y = x ∨ y ∈ l := by
  induction l with
  | nil => simp [qInsert]
  | cons z l ih =>
    unfold qInsert
    split
    · simp [List.mem_cons]
    · simp only [List.mem_cons, ih]
      tauto

theorem qInsert_pairwise {x : QueueEntry} {l : List QueueEntry}
    (h : l.Pairwise queueLt) (hx : ∀ y ∈ l, x.id < y.id) :
    (qInsert x l).Pairwise queueLt := by
  induction l with
  | nil => simp [qInsert, List.pairwise_singleton]
  | cons y ys ih =>
    rcases List.pairwise_cons.mp h with ⟨hy, hys⟩
    unfold qInsert
    split
    · rename_i hle
      refine List.pairwise_cons.mpr ⟨?_, h⟩
      intro z hz
      rcases List.mem_cons.mp hz with hz1 | hz1
      · subst hz1
        rcases Nat.lt_or_ge x.enteredAt z.enteredAt with hlt | hge
        · exact Or.inl hlt
        · exact Or.inr ⟨Nat.le_antisymm hle hge, hx z (List.mem_cons_self _ _)⟩
      · have hyz := hy z hz1
        have hyzle : y.enteredAt ≤ z.enteredAt := by
          rcases hyz with h1 | h1
          · exact Nat.le_of_lt h1
          · exact Nat.le_of_eq h1.1
        have hxz : x.enteredAt ≤ z.enteredAt := Nat.le_trans hle hyzle
        rcases Nat.lt_or_ge x.enteredAt z.enteredAt with hlt | hge
        · exact Or.inl hlt
        · exact Or.inr ⟨Nat.le_antisymm hxz hge,
            hx z (List.mem_cons_of_mem _ hz1)⟩
    · rename_i hgt
      refine List.pairwise_cons.mpr ⟨?_, ?_⟩
      · intro z hz
        rcases qInsert_mem.mp hz with hz1 | hz1
        · subst hz1
          exact Or.inl (Nat.lt_of_not_le hgt)
        · exact hy z hz1
      · exact ih hys (fun z hz => hx z (List.mem_cons_of_mem _ hz))

theorem sortQueue_mem {y : QueueEntry} {l : List QueueEntry} :
    y ∈ sortQueue l ↔ y ∈ l := by
  induction l with
  | nil => simp [sortQueue]
  | cons x xs ih =>
    unfold sortQueue
    rw [qInsert_mem]
    simp [List.mem_cons, ih, eq_comm]

theorem sortQueue_pairwise {l : List QueueEntry}
    (h : l.Pairwise (fun a b => a.id < b.id)) :
    (sortQueue l).Pairwise queueLt := by
  induction l with
  | nil => simp [sortQueue]
  | cons x xs ih =>
    rcases List.pairwise_cons.mp h with ⟨hx, hxs⟩
    unfold sortQueue
    exact qInsert_pairwise (ih hxs)
      (fun y hy => hx y (sortQueue_mem.mp hy))

theorem qInsert_append_max {x n : QueueEntry} {l : List QueueEntry}
    (hx : x.enteredAt ≤ n.enteredAt) :
    qInsert x (l ++ [n]) = qInsert x l ++ [n] := by
  induction l with
  | nil => simp [qInsert, hx]
  | cons y ys ih =>
    show qInsert x (y :: (ys ++ [n])) = qInsert x (y :: ys) ++ [n]
    unfold qInsert
    split
    · rfl
    · show y :: qInsert x (ys ++ [n]) = y :: (qInsert x ys ++ [n])
      rw [ih]

theorem sortQueue_append_max {l : List QueueEntry} {n : QueueEntry}
    (h : ∀ x ∈ l, x.enteredAt ≤ n.enteredAt) :
    sortQueue (l ++ [n]) = sortQueue l ++ [n] := by
  induction l with
  | nil => simp [sortQueue, qInsert]
  | cons x xs ih =>
    have hx := h x (List.mem_cons_self _ _)
    have ih2 := ih (fun y hy => h y (List.mem_cons_of_mem _ hy))
    show qInsert x (sortQueue (xs ++ [n])) = qInsert x (sortQueue xs) ++ [n]
    rw [ih2, qInsert_append_max hx]

theorem updFlag_eq_of_id {u : UserRec} {userId : Nat} (h : u.id = userId)
    (inQ : Bool) (qb : Option Nat) :
    updFlag userId inQ qb u = { u with inQueue := inQ, queuedBarberId := qb } := by
  unfold updFlag; rw [if_pos h]

theorem updFlag_eq_of_ne {u : UserRec} {userId : Nat} (h : u.id ≠ userId)
    (inQ : Bool) (qb : Option Nat) : updFlag userId inQ qb u = u := by
  unfold updFlag; rw [if_neg h]

theorem setFlags_pairwise_ne {users : List UserRec}
    (h : users.Pairwise (fun a b => a.id ≠ b.id)) (userId : Nat) (inQ : Bool)
    (qb : Option Nat) :
    (setFlags users userId inQ qb).Pairwise (fun a b => a.id ≠ b.id) := by
  unfold setFlags
  rw [List.pairwise_map]
  exact h.imp (fun hab => by rw [updFlag_id, updFlag_id]; exact hab)

theorem setFlags_idsLt {users : List UserRec} {nid : Nat}
    (h : ∀ u ∈ users, u.id < nid) (userId : Nat) (inQ : Bool) (qb : Option Nat) :
    ∀ u ∈ setFlags users userId inQ qb, u.id < nid := by
  intro v hv
  obtain ⟨u, hu, rfl⟩ := mem_setFlags.mp hv
  rw [updFlag_id]; exact h u hu

theorem setFlags_exists_id {users : List UserRec} {k : Nat}
    (h : ∃ u ∈ users, u.id = k) (userId : Nat) (inQ : Bool) (qb : Option Nat) :
    ∃ u ∈ setFlags users userId inQ qb, u.id = k := by
  obtain ⟨u, hu, hk⟩ := h
  exact ⟨updFlag userId inQ qb u, List.mem_map_of_mem _ hu,
    by rw [updFlag_id]; exact hk⟩

theorem joinQueue_snd (barberId userId : Nat) (service : String) (now : Nat)
    (s : DBState) :
    (joinQueue barberId userId service now s).2 =
      (joinQueueCore barberId userId service now s).2 := rfl

theorem removeFromQueue_snd (userId : Nat) (s : DBState) :
    (removeFromQueue userId s).2 = (removeFromQueueCore userId s).2 := rfl

theorem removeUserFromQueue_snd (barberId userId : Nat) (s : DBState) :
    (removeUserFromQueue barberId userId s).2 =
      (removeUserFromQueueCore barberId userId s).2 := rfl

theorem joinQueueCore_success {s : DBState} {barberId userId : Nat}
    {service : String} {now : Nat} {bb : BarberRec} {uu : UserRec}
    (hb : findBarber s barberId = some bb) (hs : service ∈ validServices)
    (hu : findUser s userId = some uu) :
    joinQueueCore barberId userId service now s =
      (.ok (joinEntry barberId userId service now s),
       joinedState barberId userId service now s) := by
  unfold joinQueueCore
  rw [hb, if_pos hs, hu]

theorem removeFromQueueCore_success {s : DBState} {userId : Nat}
    {e : QueueEntry} {b : BarberRec} {uu : UserRec}
    (he : s.entries.find? (fun e2 => e2.userId == userId) = some e)
    (hb : findBarber s e.barberId = some b)
    (hu : findUser s userId = some uu) :
    removeFromQueueCore userId s =
      (.ok { success := true, message := "Successfully removed from queue",
             data := some { barberId := e.barberId, barberName := b.name } },
       leftState userId s) := by
  unfold removeFromQueueCore
  rw [he]
  dsimp only
  rw [hb, hu]

theorem removeUserFromQueueCore_success {s : DBState} {barberId userId : Nat}
    {e : QueueEntry} {uu : UserRec}
    (he : s.entries.find? (fun e2 =>
      e2.barberId == barberId && e2.userId == userId) = some e)
    (hu : findUser s userId = some uu) :
    removeUserFromQueueCore barberId userId s =
      (.ok { success := true,
             message := "Successfully removed " ++ uu.name ++ " from queue",
             data := some { userId := uu.id, userName := uu.name } },
       brmState e.id userId s) := by
  unfold removeUserFromQueueCore
  rw [he, hu]

theorem wf_init : WF initState := by
  refine ⟨?_, ?_, ?_, ?_, ?_, ?_, ?_, ?_, ?_, ?_⟩ <;> simp [initState]

theorem wf_createUser (name phone : String) {s : DBState} (h : WF s) :
    WF (createUser name phone s).2 := by
  unfold createUser
  split
  · exact h
  refine ⟨h.entryIds, h.entryIdsLt, ?_, ?_, h.barberIds, h.barberIdsLt,
          h.entryUsers, ?_, h.entryBarberFK, ?_⟩
  · rw [List.pairwise_append]
    refine ⟨h.userIds, List.pairwise_singleton _ _, ?_⟩
    intro a ha b hb
    rw [List.mem_singleton.mp hb]
    exact Nat.ne_of_lt (h.userIdsLt a ha)
  · intro v hv
    rcases List.mem_append.mp hv with hv1 | hv1
    · exact Nat.lt_succ_of_lt (h.userIdsLt v hv1)
    · rw [List.mem_singleton.mp hv1]; exact Nat.lt_succ_self _
  · intro e he
    obtain ⟨u', hu', hid⟩ := h.entryUserFK e he
    exact ⟨u', List.mem_append.mpr (Or.inl hu'), hid⟩
  · intro v hv
    rcases List.mem_append.mp hv with hv1 | hv1
    · exact h.flags v hv1
    · rw [List.mem_singleton.mp hv1]
      have noEntry : ∀ e ∈ s.entries, e.userId ≠ s.nextUserId := by
        intro e he hid
        obtain ⟨u', hu', hid'⟩ := h.entryUserFK e he
        have hlt := h.userIdsLt u' hu'
        rw [hid', hid] at hlt
        exact Nat.lt_irrefl _ hlt
      refine ⟨?_, ?_, fun _ => rfl⟩
      · constructor
        · intro hfalse; exact absurd hfalse (by simp)
        · rintro ⟨e, he, hid⟩
          exact absurd hid (noEntry e he)
      · intro e he hid
        exact absurd hid (noEntry e he)

theorem wf_createBarber (name username : String) (lat long : Rat)
    {s : DBState} (h : WF s) : WF (createBarber name username lat long s).2 := by
  unfold createBarber
  split
  · exact h
  refine ⟨h.entryIds, h.entryIdsLt, h.userIds, h.userIdsLt, ?_, ?_,
          h.entryUsers, h.entryUserFK, ?_, h.flags⟩
  · rw [List.pairwise_append]
    refine ⟨h.barberIds, List.pairwise_singleton _ _, ?_⟩
    intro a ha b hb
    rw [List.mem_singleton.mp hb]
    exact Nat.ne_of_lt (h.barberIdsLt a ha)
  · intro v hv
    rcases List.mem_append.mp hv with hv1 | hv1
    · exact Nat.lt_succ_of_lt (h.barberIdsLt v hv1)
    · rw [List.mem_singleton.mp hv1]; exact Nat.lt_succ_self _
  · intro e he
    obtain ⟨b', hb', hid⟩ := h.entryBarberFK e he
    exact ⟨b', List.mem_append.mpr (Or.inl hb'), hid⟩

theorem wf_joinedState {s : DBState} {barberId userId : Nat} {service : String}
    {now : Nat} {bb : BarberRec} {uu : UserRec}
    (hb : findBarber s barberId = some bb) (hu : findUser s userId = some uu)
    (h : WF s) : WF (joinedState barberId userId service now s) := by
  have hbbmem : bb ∈ s.barbers := List.mem_of_find?_eq_some hb
  have hbbid : bb.id = barberId := by
    have := List.find?_some hb; simpa using this
  have huumem : uu ∈ s.users := List.mem_of_find?_eq_some hu
  have huuid : uu.id = userId := by
    have := List.find?_some hu; simpa using this
  unfold joinedState
  refine ⟨?_, ?_, ?_, ?_, h.barberIds, h.barberIdsLt, ?_, ?_, ?_, ?_⟩
  · rw [List.pairwise_append]
    refine ⟨h.entryIds.filter _, List.pairwise_singleton _ _, ?_⟩
    intro a ha b hb2
    rw [List.mem_singleton.mp hb2]
    exact h.entryIdsLt a (List.mem_of_mem_filter ha)
  · intro e he
    rcases List.mem_append.mp he with he1 | he1
    · exact Nat.lt_succ_of_lt (h.entryIdsLt e (List.mem_of_mem_filter he1))
    · rw [List.mem_singleton.mp he1]; exact Nat.lt_succ_self _
  · exact setFlags_pairwise_ne (setFlags_pairwise_ne h.userIds _ _ _) _ _ _
  · exact setFlags_idsLt (setFlags_idsLt h.userIdsLt _ _ _) _ _ _
  · rw [List.pairwise_append]
    refine ⟨h.entryUsers.filter _, List.pairwise_singleton _ _, ?_⟩
    intro a ha b hb2
    rw [List.mem_singleton.mp hb2]
    have hane := List.of_mem_filter ha
    simp only [bne_iff_ne, ne_eq] at hane
    exact hane
  · intro e he
    rcases List.mem_append.mp he with he1 | he1
    · exact setFlags_exists_id (setFlags_exists_id
        (h.entryUserFK e (List.mem_of_mem_filter he1)) _ _ _) _ _ _
    · rw [List.mem_singleton.mp he1]
      exact setFlags_exists_id (setFlags_exists_id ⟨uu, huumem, huuid⟩ _ _ _) _ _ _
  · intro e he
    rcases List.mem_append.mp he with he1 | he1
    · exact h.entryBarberFK e (List.mem_of_mem_filter he1)
    · rw [List.mem_singleton.mp he1]
      exact ⟨bb, hbbmem, hbbid⟩
  · intro v hv
    obtain ⟨w, hw, rfl⟩ := mem_setFlags.mp hv
    obtain ⟨u0, hu0, rfl⟩ := mem_setFlags.mp hw
    by_cases hid : u0.id = userId
    · rw [updFlag_eq_of_id hid, updFlag_eq_of_id
        (show ({u0 with inQueue := false, queuedBarberId := none} : UserRec).id
          = userId from hid)]
      refine ⟨?_, ?_, ?_⟩
      · constructor
        · intro _
          exact ⟨joinEntry barberId userId service now s,
            List.mem_append.mpr (Or.inr (List.mem_singleton.mpr rfl)), hid.symm⟩
        · intro _; rfl
      · intro e he hei
        rcases List.mem_append.mp he with he1 | he1
        · have := List.of_mem_filter he1
          simp only [bne_iff_ne, ne_eq] at this
          exact absurd (hei.trans hid) this
        · rw [List.mem_singleton.mp he1]; rfl
      · intro hnone
        have hmem : joinEntry barberId userId service now s ∈
            s.entries.filter (fun e => e.userId != userId) ++
              [joinEntry barberId userId service now s] :=
          List.mem_append.mpr (Or.inr (List.mem_singleton.mpr rfl))
        exact absurd hid.symm (hnone _ hmem)
    · rw [updFlag_eq_of_ne hid, updFlag_eq_of_ne hid]
      obtain ⟨hf1, hf2, hf3⟩ := h.flags u0 hu0
      have hmemiff : ∀ e : QueueEntry,
          (e ∈ s.entries.filter (fun e2 => e2.userId != userId) ++
            [joinEntry barberId userId service now s] ∧ e.userId = u0.id) ↔
          (e ∈ s.entries ∧ e.userId = u0.id) := by
        intro e
        constructor
        · rintro ⟨he, hei⟩
          rcases List.mem_append.mp he with he1 | he1
          · exact ⟨List.mem_of_mem_filter he1, hei⟩
          · rw [List.mem_singleton.mp he1] at hei
            exact absurd hei.symm hid
        · rintro ⟨he, hei⟩
          refine ⟨List.mem_append.mpr (Or.inl (List.mem_filter.mpr ⟨he, ?_⟩)), hei⟩
          simp only [bne_iff_ne, ne_eq]
          rw [hei]
          exact hid
      refine ⟨?_, ?_, ?_⟩
      · rw [hf1]
        constructor
        · rintro ⟨e, he, hei⟩
          obtain ⟨he2, hei2⟩ := (hmemiff e).mpr ⟨he, hei⟩
          exact ⟨e, he2, hei2⟩
        · rintro ⟨e, he, hei⟩
          obtain ⟨he2, hei2⟩ := (hmemiff e).mp ⟨he, hei⟩
          exact ⟨e, he2, hei2⟩
      · intro e he hei
        exact hf2 e ((hmemiff e).mp ⟨he, hei⟩).1 hei
      · intro hnone
        refine hf3 ?_
        intro e he hei
        exact hnone e ((hmemiff e).mpr ⟨he, hei⟩).1 hei

theorem flags_transfer {s : DBState} {u0 : UserRec} (hu0 : u0 ∈ s.users)
    (h : WF s) {l2 : List QueueEntry}
    (hiff : ∀ e : QueueEntry,
      (e ∈ l2 ∧ e.userId = u0.id) ↔ (e ∈ s.entries ∧ e.userId = u0.id)) :
    (u0.inQueue = true ↔ ∃ e ∈ l2, e.userId = u0.id) ∧
    (∀ e ∈ l2, e.userId = u0.id → u0.queuedBarberId = some e.barberId) ∧
    ((∀ e ∈ l2, e.userId ≠ u0.id) → u0.queuedBarberId = none) := by
  obtain ⟨hf1, hf2, hf3⟩ := h.flags u0 hu0
  refine ⟨?_, ?_, ?_⟩
  · rw [hf1]
    constructor
    · rintro ⟨e, he, hei⟩
      obtain ⟨he2, hei2⟩ := (hiff e).mpr ⟨he, hei⟩
      exact ⟨e, he2, hei2⟩
    · rintro ⟨e, he, hei⟩
      obtain ⟨he2, hei2⟩ := (hiff e).mp ⟨he, hei⟩
      exact ⟨e, he2, hei2⟩
  · intro e he hei
    exact hf2 e ((hiff e).mp ⟨he, hei⟩).1 hei
  · intro hnone
    exact hf3 (fun e he hei => hnone e ((hiff e).mpr ⟨he, hei⟩).1 hei)

theorem wf_leftState {s : DBState} (userId : Nat) (h : WF s) :
    WF (leftState userId s) := by
  unfold leftState
  refine ⟨h.entryIds.filter _, ?_, setFlags_pairwise_ne h.userIds _ _ _,
          setFlags_idsLt h.userIdsLt _ _ _, h.barberIds, h.barberIdsLt,
          h.entryUsers.filter _, ?_, ?_, ?_⟩
  · intro e he; exact h.entryIdsLt e (List.mem_of_mem_filter he)
  · intro e he
    exact setFlags_exists_id (h.entryUserFK e (List.mem_of_mem_filter he)) _ _ _
  · intro e he; exact h.entryBarberFK e (List.mem_of_mem_filter he)
  · intro v hv
    obtain ⟨u0, hu0, rfl⟩ := mem_setFlags.mp hv
    by_cases hid : u0.id = userId
    · rw [updFlag_eq_of_id hid]
      have hnomem : ∀ e ∈ s.entries.filter (fun e2 => e2.userId != userId),
          e.userId ≠ u0.id := by
        intro e he hei
        have hne := List.of_mem_filter he
        simp only [bne_iff_ne, ne_eq] at hne
        exact hne (hei.trans hid)
      refine ⟨?_, ?_, fun _ => rfl⟩
      · constructor
        · intro hfalse; exact absurd hfalse Bool.false_ne_true
        · rintro ⟨e, he, hei⟩; exact absurd hei (hnomem e he)
      · intro e he hei; exact absurd hei (hnomem e he)
    · rw [updFlag_eq_of_ne hid]
      refine flags_transfer hu0 h ?_
      intro e
      constructor
      · rintro ⟨he, hei⟩; exact ⟨List.mem_of_mem_filter he, hei⟩
      · rintro ⟨he, hei⟩
        refine ⟨List.mem_filter.mpr ⟨he, ?_⟩, hei⟩
        simp only [bne_iff_ne, ne_eq]
        rw [hei]; exact hid

theorem wf_brmState {s : DBState} {e0 : QueueEntry} {userId : Nat}
    (he0 : e0 ∈ s.entries) (hei0 : e0.userId = userId) (h : WF s) :
    WF (brmState e0.id userId s) := by
  unfold brmState
  refine ⟨h.entryIds.filter _, ?_, setFlags_pairwise_ne h.userIds _ _ _,
          setFlags_idsLt h.userIdsLt _ _ _, h.barberIds, h.barberIdsLt,
          h.entryUsers.filter _, ?_, ?_, ?_⟩
  · intro e he; exact h.entryIdsLt e (List.mem_of_mem_filter he)
  · intro e he
    exact setFlags_exists_id (h.entryUserFK e (List.mem_of_mem_filter he)) _ _ _
  · intro e he; exact h.entryBarberFK e (List.mem_of_mem_filter he)
  · intro v hv
    obtain ⟨u0, hu0, rfl⟩ := mem_setFlags.mp hv
    by_cases hid : u0.id = userId
    · rw [updFlag_eq_of_id hid]
      have hnomem : ∀ e ∈ s.entries.filter (fun e2 => e2.id != e0.id),
          e.userId ≠ u0.id := by
        intro e he hei
        have hne := List.of_mem_filter he
        simp only [bne_iff_ne, ne_eq] at hne
        have heq : e = e0 := pairwise_key_eq (fun x => x.userId) h.entryUsers
          (List.mem_of_mem_filter he) he0
          (by show e.userId = e0.userId; rw [hei, hid, ← hei0])
        exact hne (by rw [heq])
      refine ⟨?_, ?_, fun _ => rfl⟩
      · constructor
        · intro hfalse; exact absurd hfalse Bool.false_ne_true
        · rintro ⟨e, he, hei⟩; exact absurd hei (hnomem e he)
      · intro e he hei; exact absurd hei (hnomem e he)
    · rw [updFlag_eq_of_ne hid]
      refine flags_transfer hu0 h ?_
      intro e
      constructor
      · rintro ⟨he, hei⟩; exact ⟨List.mem_of_mem_filter he, hei⟩
      · rintro ⟨he, hei⟩
        refine ⟨List.mem_filter.mpr ⟨he, ?_⟩, hei⟩
        simp only [bne_iff_ne, ne_eq]
        intro hidq
        have heq : e = e0 := pairwise_key_eq (fun x => x.id)
          (h.entryIds.imp (fun hab => Nat.ne_of_lt hab)) he he0 hidq
        rw [heq, hei0] at hei
        exact hid hei.symm

theorem wf_joinQueue (barberId userId : Nat) (service : String) (now : Nat)
    {s : DBState} (h : WF s) : WF (joinQueue barberId userId service now s).2 := by
  rw [joinQueue_snd]
  unfold joinQueueCore
  cases hb : findBarber s barberId with
  | none => exact h
  | some bb =>
    dsimp only
    split
    · cases hu : findUser s userId with
      | none => exact h
      | some uu => exact wf_joinedState hb hu h
    · exact h

theorem wf_removeFromQueue (userId : Nat) {s : DBState} (h : WF s) :
    WF (removeFromQueue userId s).2 := by
  rw [removeFromQueue_snd]
  unfold removeFromQueueCore
  cases he : s.entries.find? (fun e => e.userId == userId) with
  | none => exact h
  | some e =>
    dsimp only
    cases hb : findBarber s e.barberId with
    | none => exact h
    | some b =>
      dsimp only
      cases hu : findUser s userId with
      | none => exact h
      | some uu => exact wf_leftState userId h

theorem wf_removeUserFromQueue (barberId userId : Nat) {s : DBState}
    (h : WF s) : WF (removeUserFromQueue barberId userId s).2 := by
  rw [removeUserFromQueue_snd]
  unfold removeUserFromQueueCore
  cases he : s.entries.find? (fun e =>
      e.barberId == barberId && e.userId == userId) with
  | none => exact h
  | some e =>
    dsimp only
    cases hu : findUser s userId with
    | none => exact h
    | some uu =>
      have hmem := List.mem_of_find?_eq_some he
      have hpred := List.find?_some he
      simp only [Bool.and_eq_true, beq_iff_eq] at hpred
      exact wf_brmState hmem hpred.2 h

theorem reachable_wf {s : DBState} (h : Reachable s) : WF s := by
  induction h with
  | init => exact wf_init
  | cuser s name phone _ ih => exact wf_createUser name phone ih
  | cbarber s name username lat long _ ih =>
      exact wf_createBarber name username lat long ih
  | join s b u srv t _ ih => exact wf_joinQueue b u srv t ih
  | leave s u _ ih => exact wf_removeFromQueue u ih
  | brm s b u _ ih => exact wf_removeUserFromQueue b u ih

theorem mapError_ok {ε ε' α : Type} {f : ε → ε'} {x : Except ε α} {a : α}
    (h : x.mapError f = .ok a) : x = .ok a := by
  cases x with
  | ok b => cases h; rfl
  | error e => exact Except.noConfusion h

theorem reach_sU2 : Reachable sU2 :=
  Reachable.cuser _ _ _ (Reachable.cuser _ _ _
    (Reachable.cbarber _ _ _ _ _ Reachable.init))

theorem reach_sTie : Reachable sTie :=
  Reachable.join _ 1 2 "beard" 5 (Reachable.join _ 1 1 "haircut" 5 reach_sU2)

theorem reach_sTwo : Reachable sTwo :=
  Reachable.cuser _ _ _ (Reachable.cbarber _ _ _ _ _
    (Reachable.cbarber _ _ _ _ _ Reachable.init))

theorem reach_sFour : Reachable sFour :=
  Reachable.join _ 1 4 "haircut" 4 (Reachable.join _ 1 3 "haircut" 3
    (Reachable.join _ 1 2 "haircut" 2 (Reachable.join _ 1 1 "haircut" 1
      (Reachable.cuser _ _ _ (Reachable.cuser _ _ _ (Reachable.cuser _ _ _
        (Reachable.cuser _ _ _
          (Reachable.cbarber _ _ _ _ _ Reachable.init))))))))

/-- C1: in every reachable state each customer has at most one live queue
entry system-wide, and every user record's `inQueue` flag and
`queuedBarberId` mirror the queue table exactly: `inQueue` is true iff an
entry for that user exists, `queuedBarberId` equals that entry's barber when
one exists and is null otherwise.  Preservation by every mutating operation
is captured by quantifying over all `Reachable` states. -/
theorem claim1_single_membership (s : DBState) (h : Reachable s) :
    s.entries.Pairwise (fun a b => a.userId ≠ b.userId) ∧
    ∀ u ∈ s.users,
      (u.inQueue = true ↔ ∃ e ∈ s.entries, e.userId = u.id) ∧
      (∀ e ∈ s.entries, e.userId = u.id → u.queuedBarberId = some e.barberId) ∧
      ((∀ e ∈ s.entries, e.userId ≠ u.id) → u.queuedBarberId = none) :=
  ⟨(reachable_wf h).entryUsers, (reachable_wf h).flags⟩

/-- Witness for C1 at the concrete two-customer state `sTie`. -/
theorem claim1_witness :
    sTie.entries.Pairwise (fun a b => a.userId ≠ b.userId) ∧
    ∀ u ∈ sTie.users,
      (u.inQueue = true ↔ ∃ e ∈ sTie.entries, e.userId = u.id) ∧
      (∀ e ∈ sTie.entries, e.userId = u.id → u.queuedBarberId = some e.barberId) ∧
      ((∀ e ∈ sTie.entries, e.userId ≠ u.id) → u.queuedBarberId = none) :=
  claim1_single_membership sTie reach_sTie

/-- C4 (amended): every listing the `getQueue` query may return is
non-decreasing in `enteredAt`; the relative order of entries with equal
`enteredAt` is not guaranteed (the query has no secondary sort key).
Moreover, when the barber's entries carry pairwise-distinct timestamps the
listing is fully determined: it is then also sorted in the strict
(`enteredAt`, id) order `queueLt`. -/
theorem claim4_queue_order (s : DBState) (h : Reachable s) (barberId : Nat)
    (l : List QueueEntry) (hl : getQueueRel barberId s l) :
    l.Pairwise (fun a b => a.enteredAt ≤ b.enteredAt) ∧
    ((s.entries.filter (fun e => e.barberId == barberId)).Pairwise
        (fun a b => a.enteredAt ≠ b.enteredAt) →
      l.Pairwise queueLt) := by
  obtain ⟨hbex, hperm, hle⟩ := hl
  refine ⟨hle, ?_⟩
  intro hdist
  have hsymm : ∀ {a b : QueueEntry},
      a.enteredAt ≠ b.enteredAt → b.enteredAt ≠ a.enteredAt :=
    fun hab => fun heq => hab heq.symm
  have hdl : l.Pairwise (fun a b => a.enteredAt ≠ b.enteredAt) :=
    (List.Perm.pairwise_iff hsymm hperm).mpr hdist
  refine (hle.and hdl).imp ?_
  intro a b hab
  exact Or.inl (Nat.lt_of_le_of_ne hab.1 hab.2)

/-- Witness for C4 at `sFour`, whose four entries have distinct timestamps:
the one legal listing is ascending in `enteredAt` and in `queueLt`. -/
theorem claim4_witness :
    List.Pairwise (fun a b => a.enteredAt ≤ b.enteredAt)
      [({ id := 1, enteredAt := 1, service := "haircut", barberId := 1,
          userId := 1 } : QueueEntry),
       { id := 2, enteredAt := 2, service := "haircut", barberId := 1,
         userId := 2 },
       { id := 3, enteredAt := 3, service := "haircut", barberId := 1,
         userId := 3 },
       { id := 4, enteredAt := 4, service := "haircut", barberId := 1,
         userId := 4 }] ∧
    ((sFour.entries.filter (fun e => e.barberId == 1)).Pairwise
        (fun a b => a.enteredAt ≠ b.enteredAt) →
      List.Pairwise queueLt
        [({ id := 1, enteredAt := 1, service := "haircut", barberId := 1,
            userId := 1 } : QueueEntry),
         { id := 2, enteredAt := 2, service := "haircut", barberId := 1,
           userId := 2 },
         { id := 3, enteredAt := 3, service := "haircut", barberId := 1,
           userId := 3 },
         { id := 4, enteredAt := 4, service := "haircut", barberId := 1,
           userId := 4 }]) :=
  claim4_queue_order sFour reach_sFour 1 _ (by refine ⟨rfl, ?_, ?_⟩ <;> decide)

/-- C4 counterexample to the original on-ties-ascending-in-id clause: in
`sTie` the two entries of barber 1 share `enteredAt = 5`, so the reversed
list (ids 2 then 1) also satisfies the query's contract `getQueueRel` — it is
a legal result of `listQueue` — yet it is non-decreasing in `enteredAt`
without being ascending in entry id on the tie. -/
theorem claim4_counterexample :
    getQueueRel 1 sTie
      [({ id := 2, enteredAt := 5, service := "beard", barberId := 1,
          userId := 2 } : QueueEntry),
       { id := 1, enteredAt := 5, service := "haircut", barberId := 1,
         userId := 1 }] ∧
    List.Pairwise (fun a b => a.enteredAt ≤ b.enteredAt)
      [({ id := 2, enteredAt := 5, service := "beard", barberId := 1,
          userId := 2 } : QueueEntry),
       { id := 1, enteredAt := 5, service := "haircut", barberId := 1,
         userId := 1 }] ∧
    ¬ List.Pairwise queueLt
      [({ id := 2, enteredAt := 5, service := "beard", barberId := 1,
          userId := 2 } : QueueEntry),
       { id := 1, enteredAt := 5, service := "haircut", barberId := 1,
         userId := 1 }] :=
  ⟨⟨rfl, by decide, by decide⟩, by decide, by decide⟩

/-- C10: no implemented operation appends a Service History Record: every
mutating operation of the two service files leaves the `ServiceHistory`
relation exactly as it was — in particular the operator removal
`removeUserFromQueue`. -/
theorem claim10_no_history_write :
    ∀ (s : DBState) (name phone username : String) (lat long : Rat)
      (barberId userId : Nat) (service : String) (now : Nat),
      (createUser name phone s).2.history = s.history ∧
      (createBarber name username lat long s).2.history = s.history ∧
      (joinQueue barberId userId service now s).2.history = s.history ∧
      (removeFromQueue userId s).2.history = s.history ∧
      (removeUserFromQueue barberId userId s).2.history = s.history := by
  intro s name phone username lat long barberId userId service now
  refine ⟨?_, ?_, ?_, ?_, ?_⟩
  · unfold createUser; split <;> rfl
  · unfold createBarber; split <;> rfl
  · rw [joinQueue_snd]; unfold joinQueueCore
    cases findBarber s barberId with
    | none => rfl
    | some bb =>
      dsimp only
      split
      · cases findUser s userId with
        | none => rfl
        | some uu => rfl
      · rfl
  · rw [removeFromQueue_snd]; unfold removeFromQueueCore
    cases s.entries.find? (fun e => e.userId == userId) with
    | none => rfl
    | some e =>
      dsimp only
      cases findBarber s e.barberId with
      | none => rfl
      | some b =>
        dsimp only
        cases findUser s userId with
        | none => rfl
        | some uu => rfl
  · rw [removeUserFromQueue_snd]; unfold removeUserFromQueueCore
    cases s.entries.find? (fun e => e.barberId == barberId && e.userId == userId) with
    | none => rfl
    | some e =>
      dsimp only
      cases findUser s userId with
      | none => rfl
      | some uu => rfl

/-- C2 (amended): for a queued customer, `getUserQueueStatus` reports
position = 1 + the number of same-barber entries with strictly earlier
`enteredAt` (entries with an equal timestamp are not counted: there is no id
tie-break) and estimatedWait = (position − 1) × 15. -/
theorem claim2_position_projection (s : DBState) (h : Reachable s)
    (userId : Nat) (u : UserRec) (e : QueueEntry)
    (hu : findUser s userId = some u) (hq : u.inQueue = true)
    (he : s.entries.find? (fun e2 => e2.userId == userId) = some e) :
    ∃ b : BarberRec, findBarber s e.barberId = some b ∧ b.id = e.barberId ∧
      getUserQueueStatus userId s =
        .ok { inQueue := true, position := some (earlierCount s e + 1),
              barberId := some b.id, barberName := some b.name,
              estimatedWait := some ((earlierCount s e + 1 - 1) * 15),
              service := some e.service, enteredAt := some e.enteredAt } := by
  have hw := reachable_wf h
  have hemem := List.mem_of_find?_eq_some he
  have heid : e.userId = userId := by simpa using List.find?_some he
  have humem := List.mem_of_find?_eq_some hu
  have huid : u.id = userId := by simpa using List.find?_some hu
  have hqb : u.queuedBarberId = some e.barberId :=
    (hw.flags u humem).2.1 e hemem (by rw [heid, huid])
  obtain ⟨bb, hbbmem, hbbid⟩ := hw.entryBarberFK e hemem
  have hbbsome : (findBarber s e.barberId).isSome := by
    unfold findBarber
    rw [List.find?_isSome]
    exact ⟨bb, hbbmem, by simp [hbbid]⟩
  obtain ⟨b, hb⟩ := Option.isSome_iff_exists.mp hbbsome
  refine ⟨b, hb, by simpa using List.find?_some hb, ?_⟩
  unfold getUserQueueStatus getUserQueueStatusCore
  rw [hu]
  dsimp only
  rw [he]
  dsimp only
  rw [hq, hb, hqb]
  rfl

/-- Witness for C2 at the four-customer state `sFour`: the fourth customer
sees position 4 and an estimated wait of 45 minutes. -/
theorem claim2_witness :
    ∃ b : BarberRec, findBarber sFour 1 = some b ∧ b.id = 1 ∧
      getUserQueueStatus 4 sFour =
        .ok { inQueue := true, position := some 4, barberId := some b.id,
              barberName := some b.name, estimatedWait := some 45,
              service := some "haircut", enteredAt := some 4 } :=
  claim2_position_projection sFour reach_sFour 4
    { id := 4, name := "U4", phoneNumber := "p4", inQueue := true,
      queuedBarberId := some 1 }
    { id := 4, enteredAt := 4, service := "haircut", barberId := 1, userId := 4 }
    rfl rfl rfl

/-- C2 counterexample to the tie-break clause: in `sTie` the two entries
share `enteredAt = 5`; the spec's tie-break position of the second customer
(entry id 2) is 2, but the code reports position 1, because its count uses
only `enteredAt < enteredAt` with no id comparison. -/
theorem claim2_counterexample :
    getUserQueueStatus 2 sTie =
      .ok { inQueue := true, position := some 1, barberId := some 1,
            barberName := some "B1", estimatedWait := some 0,
            service := some "beard", enteredAt := some 5 } ∧
    sTie.entries.find? (fun e2 => e2.userId == 2) =
      some { id := 2, enteredAt := 5, service := "beard", barberId := 1,
             userId := 2 } ∧
    specPosition sTie
      { id := 2, enteredAt := 5, service := "beard", barberId := 1,
        userId := 2 } = 2 :=
  ⟨rfl, rfl, rfl⟩

/-- C6: leaving twice in a row: the first `removeFromQueue` succeeds and
reports the prior barber, the second returns the benign explicit
`success: false` result and leaves the state exactly as the first call left
it. -/
theorem claim6_idempotent_leave (s : DBState) (h : Reachable s) (userId : Nat)
    (e : QueueEntry)
    (he : s.entries.find? (fun e2 => e2.userId == userId) = some e) :
    ∃ b : BarberRec, findBarber s e.barberId = some b ∧
      removeFromQueue userId s =
        (.ok { success := true, message := "Successfully removed from queue",
               data := some { barberId := e.barberId, barberName := b.name } },
         leftState userId s) ∧
      removeFromQueue userId (leftState userId s) =
        (.ok { success := false, message := "User is not in any queue",
               data := none },
         leftState userId s) := by
  have hw := reachable_wf h
  have hemem := List.mem_of_find?_eq_some he
  have heid : e.userId = userId := by simpa using List.find?_some he
  obtain ⟨bb, hbbmem, hbbid⟩ := hw.entryBarberFK e hemem
  have hbbsome : (findBarber s e.barberId).isSome := by
    unfold findBarber
    rw [List.find?_isSome]
    exact ⟨bb, hbbmem, by simp [hbbid]⟩
  obtain ⟨b, hb⟩ := Option.isSome_iff_exists.mp hbbsome
  obtain ⟨uu, huumem, huuid⟩ := hw.entryUserFK e hemem
  have husome : (findUser s userId).isSome := by
    unfold findUser
    rw [List.find?_isSome]
    refine ⟨uu, huumem, ?_⟩
    rw [heid] at huuid
    simp [huuid]
  obtain ⟨u1, hu1⟩ := Option.isSome_iff_exists.mp husome
  refine ⟨b, hb, ?_, ?_⟩
  · unfold removeFromQueue
    rw [removeFromQueueCore_success he hb hu1]
    rfl
  · have hnone : (leftState userId s).entries.find?
        (fun e2 => e2.userId == userId) = none := by
      rw [List.find?_eq_none]
      intro x hx
      have hne := List.of_mem_filter (p := fun e2 => e2.userId != userId)
        (l := s.entries) hx
      simpa using hne
    unfold removeFromQueue removeFromQueueCore
    rw [hnone]
    rfl

/-- Witness for C6 at `sTie`, removing customer 1 twice. -/
theorem claim6_witness :
    ∃ b : BarberRec, findBarber sTie 1 = some b ∧
      removeFromQueue 1 sTie =
        (.ok { success := true, message := "Successfully removed from queue",
               data := some { barberId := 1, barberName := b.name } },
         leftState 1 sTie) ∧
      removeFromQueue 1 (leftState 1 sTie) =
        (.ok { success := false, message := "User is not in any queue",
               data := none },
         leftState 1 sTie) :=
  claim6_idempotent_leave sTie reach_sTie 1
    { id := 1, enteredAt := 5, service := "haircut", barberId := 1,
      userId := 1 } rfl

/-- C9: `getUserQueueStatus` for an unknown customer raises an error (the
body throws `"User not found"`, surfaced by the catch block as
`"Failed to get queue status"`) instead of returning `inQueue: false`; and
the `inQueue: false` projection (with all fields null) is produced only for
an existing customer with no live queue entry. -/
theorem claim9_status_requires_user (s : DBState) (h : Reachable s)
    (userId : Nat) :
    (findUser s userId = none →
      getUserQueueStatusCore userId s = .error "User not found" ∧
      getUserQueueStatus userId s = .error "Failed to get queue status") ∧
    (∀ r : StatusResult, getUserQueueStatus userId s = .ok r →
      r.inQueue = false →
      r = statusNotInQueue ∧ (∃ u ∈ s.users, u.id = userId) ∧
      ∀ e ∈ s.entries, e.userId ≠ userId) := by
  constructor
  · intro hnone
    constructor
    · unfold getUserQueueStatusCore
      rw [hnone]
    · unfold getUserQueueStatus getUserQueueStatusCore
      rw [hnone]
      rfl
  · intro r hr hrq
    have hcore : getUserQueueStatusCore userId s = .ok r := mapError_ok hr
    unfold getUserQueueStatusCore at hcore
    cases hu : findUser s userId with
    | none => rw [hu] at hcore; exact Except.noConfusion hcore
    | some u =>
      rw [hu] at hcore
      dsimp only at hcore
      have humem := List.mem_of_find?_eq_some hu
      have huid : u.id = userId := by simpa using List.find?_some hu
      cases he : s.entries.find? (fun e2 => e2.userId == userId) with
      | none =>
        rw [he] at hcore
        dsimp only at hcore
        have hr2 : statusNotInQueue = r := by injection hcore
        refine ⟨hr2.symm, ⟨u, humem, huid⟩, ?_⟩
        intro e he2 hei
        have hno := List.find?_eq_none.mp he e he2
        simp [hei] at hno
      | some e =>
        rw [he] at hcore
        dsimp only at hcore
        by_cases hq : u.inQueue = true
        · rw [if_pos hq] at hcore
          cases hb : findBarber s e.barberId with
          | none => rw [hb] at hcore; exact Except.noConfusion hcore
          | some b =>
            rw [hb] at hcore
            dsimp only at hcore
            have hrec := hcore
            injection hrec with hrec2
            rw [← hrec2] at hrq
            exact Bool.noConfusion hrq
        · rw [if_neg hq] at hcore
          have hr2 : statusNotInQueue = r := by injection hcore
          have hw := reachable_wf h
          have hemem := List.mem_of_find?_eq_some he
          have heid : e.userId = userId := by simpa using List.find?_some he
          have htrue : u.inQueue = true :=
            ((hw.flags u humem).1).mpr ⟨e, hemem, by rw [heid, huid]⟩
          exact absurd htrue hq

/-- Witness for C9: customer id 99 does not exist in `sTie`. -/
theorem claim9_witness :
    getUserQueueStatusCore 99 sTie = .error "User not found" ∧
    getUserQueueStatus 99 sTie = .error "Failed to get queue status" :=
  (claim9_status_requires_user sTie reach_sTie 99).1 rfl

/-- C7 (amended): `joinQueue` rejects a nonexistent barber and an invalid
service kind before any mutation — the returned state is the input state.
Internally the two reasons are distinct (`"Barber not found"` vs
`"Invalid service type"`), but the exported function's catch block reports
both to the caller as the same generic `"Failed to join queue"`, so the
failure kinds are not distinguishable by the caller. -/
theorem claim7_join_failures (s : DBState) (barberId userId : Nat)
    (service : String) (now : Nat) :
    (findBarber s barberId = none →
      joinQueueCore barberId userId service now s =
        (.error "Barber not found", s) ∧
      joinQueue barberId userId service now s =
        (.error "Failed to join queue", s)) ∧
    (∀ bb : BarberRec, findBarber s barberId = some bb →
      service ∉ validServices →
      joinQueueCore barberId userId service now s =
        (.error "Invalid service type", s) ∧
      joinQueue barberId userId service now s =
        (.error "Failed to join queue", s)) := by
  constructor
  · intro hb
    have hcore : joinQueueCore barberId userId service now s =
        (.error "Barber not found", s) := by
      unfold joinQueueCore
      rw [hb]
    refine ⟨hcore, ?_⟩
    unfold joinQueue
    rw [hcore]
    rfl
  · intro bb hb hs
    have hcore : joinQueueCore barberId userId service now s =
        (.error "Invalid service type", s) := by
      unfold joinQueueCore
      rw [hb]
      dsimp only
      rw [if_neg hs]
    refine ⟨hcore, ?_⟩
    unfold joinQueue
    rw [hcore]
    rfl

/-- Witness for C7 at `sU2`: barber 99 is absent; "manicure" is not a valid
service kind. -/
theorem claim7_witness :
    (joinQueueCore 99 1 "haircut" 0 sU2 = (.error "Barber not found", sU2) ∧
     joinQueue 99 1 "haircut" 0 sU2 = (.error "Failed to join queue", sU2)) ∧
    (joinQueueCore 1 1 "manicure" 0 sU2 = (.error "Invalid service type", sU2) ∧
     joinQueue 1 1 "manicure" 0 sU2 = (.error "Failed to join queue", sU2)) :=
  ⟨(claim7_join_failures sU2 99 1 "haircut" 0).1 rfl,
   (claim7_join_failures sU2 1 1 "manicure" 0).2
     { id := 1, name := "B1", username := "b1", lat := 0, long := 0 } rfl
     (by decide)⟩

/-- C7 counterexample to caller-side distinguishability: in `sU2` barber 99
does not exist and "manicure" is not a valid service, yet the two exported
calls fail with the identical error value, so NotFound and InvalidArgument
cannot be told apart by the caller. -/
theorem claim7_counterexample :
    findBarber sU2 99 = none ∧
    ("manicure" ∈ validServices → False) ∧
    (joinQueue 99 1 "haircut" 0 sU2).1 = .error "Failed to join queue" ∧
    (joinQueue 1 1 "manicure" 0 sU2).1 = .error "Failed to join queue" :=
  ⟨rfl, by decide, rfl, rfl⟩

/-- C8: operator removal: when the customer has no entry belonging to this
barber (no entry at all, or — by single membership — an entry at a different
barber), `removeUserFromQueue` returns the explicit failure result and leaves
the state unchanged; when the customer's entry does belong to this barber it
succeeds, atomically deleting exactly that entry and clearing the customer's
flags (`brmState`). -/
theorem claim8_operator_removal (s : DBState) (h : Reachable s)
    (barberId userId : Nat) :
    ((∀ e ∈ s.entries, e.userId = userId → e.barberId ≠ barberId) →
      removeUserFromQueue barberId userId s =
        (.ok { success := false,
               message := "User is not in this barber's queue", data := none },
         s)) ∧
    (∀ e ∈ s.entries, e.userId = userId → e.barberId = barberId →
      ∃ uu : UserRec, findUser s userId = some uu ∧
        removeUserFromQueue barberId userId s =
          (.ok { success := true,
                 message := "Successfully removed " ++ uu.name ++ " from queue",
                 data := some { userId := uu.id, userName := uu.name } },
           brmState e.id userId s)) := by
  have hw := reachable_wf h
  constructor
  · intro hno
    have hnone : s.entries.find?
        (fun e => e.barberId == barberId && e.userId == userId) = none := by
      rw [List.find?_eq_none]
      intro e he
      simp only [Bool.and_eq_true, beq_iff_eq, not_and]
      intro hb hu
      exact hno e he hu hb
    unfold removeUserFromQueue removeUserFromQueueCore
    rw [hnone]
    rfl
  · intro e he heu heb
    have hsome : (s.entries.find?
        (fun e2 => e2.barberId == barberId && e2.userId == userId)).isSome := by
      rw [List.find?_isSome]
      exact ⟨e, he, by simp [heu, heb]⟩
    obtain ⟨e2, he2⟩ := Option.isSome_iff_exists.mp hsome
    have he2mem := List.mem_of_find?_eq_some he2
    have hpred := List.find?_some he2
    simp only [Bool.and_eq_true, beq_iff_eq] at hpred
    have hee : e2 = e := pairwise_key_eq (fun z => z.userId) hw.entryUsers
      he2mem he (by show e2.userId = e.userId; rw [hpred.2, heu])
    obtain ⟨uu0, huu0mem, huu0⟩ := hw.entryUserFK e he
    have husome : (findUser s userId).isSome := by
      unfold findUser
      rw [List.find?_isSome]
      exact ⟨uu0, huu0mem, by simp [huu0, heu]⟩
    obtain ⟨uu, huu⟩ := Option.isSome_iff_exists.mp husome
    refine ⟨uu, huu, ?_⟩
    unfold removeUserFromQueue
    rw [removeUserFromQueueCore_success he2 huu, hee]
    rfl

/-- Witness for C8 at `sTie`: removal by the nonexistent barber 7 fails and
changes nothing; removal of customer 1 by barber 1 succeeds and deletes
entry 1. -/
theorem claim8_witness :
    removeUserFromQueue 7 1 sTie =
      (.ok { success := false, message := "User is not in this barber's queue",
             data := none }, sTie) ∧
    (∃ uu : UserRec, findUser sTie 1 = some uu ∧
      removeUserFromQueue 1 1 sTie =
        (.ok { success := true,
               message := "Successfully removed " ++ uu.name ++ " from queue",
               data := some { userId := uu.id, userName := uu.name } },
         brmState 1 1 sTie)) :=
  ⟨(claim8_operator_removal sTie reach_sTie 7 1).1 (by decide),
   (claim8_operator_removal sTie reach_sTie 1 1).2
     { id := 1, enteredAt := 5, service := "haircut", barberId := 1,
       userId := 1 }
     (by decide) rfl rfl⟩

theorem updFlag_updFlag {u : UserRec} {userId : Nat} (h : u.id = userId)
    (q1 : Bool) (b1 : Option Nat) (q2 : Bool) (b2 : Option Nat) :
    updFlag userId q2 b2 (updFlag userId q1 b1 u) =
      { u with inQueue := q2, queuedBarberId := b2 } := by
  rw [updFlag_eq_of_id h]
  rw [updFlag_eq_of_id (u := { u with inQueue := q1, queuedBarberId := b1 }) h]

/-- C3: a successful join at barber `x` followed by a successful join at a
different barber `y` leaves the customer with exactly one queue entry, which
sits at the back of `y`'s listed queue; `x`'s listing no longer contains the
customer, and status reports membership at `y`.  The hypothesis `ht` says the
second join's timestamp is not earlier than any live entry's (the store's
clock is monotone). -/
theorem claim3_rejoin_switches (s : DBState) (h : Reachable s)
    (x y userId : Nat) (srv1 srv2 : String) (t1 t2 : Nat) (hxy : x ≠ y)
    (bx : BarberRec) (hx : findBarber s x = some bx)
    (bY : BarberRec) (hy : findBarber s y = some bY)
    (u0 : UserRec) (hu : findUser s userId = some u0)
    (h1 : srv1 ∈ validServices) (h2 : srv2 ∈ validServices)
    (ht : ∀ e ∈ (joinQueue x userId srv1 t1 s).2.entries, e.enteredAt ≤ t2) :
    ∃ n : QueueEntry, n.barberId = y ∧ n.userId = userId ∧ n.enteredAt = t2 ∧
      (rejoinState x y userId srv1 srv2 t1 t2 s).entries.filter
        (fun e => e.userId == userId) = [n] ∧
      (∃ ly, getQueue y (rejoinState x y userId srv1 srv2 t1 t2 s) = .ok ly ∧
        ly.getLast? = some n) ∧
      (∃ lx, getQueue x (rejoinState x y userId srv1 srv2 t1 t2 s) = .ok lx ∧
        ∀ e ∈ lx, e.userId ≠ userId) ∧
      (∃ r : StatusResult,
        getUserQueueStatus userId (rejoinState x y userId srv1 srv2 t1 t2 s) =
          .ok r ∧ r.inQueue = true ∧ r.barberId = some y) := by
  have hu0id : u0.id = userId := by simpa using List.find?_some hu
  have hbYid : bY.id = y := by simpa using List.find?_some hy
  have hs1 : (joinQueue x userId srv1 t1 s).2 = joinedState x userId srv1 t1 s := by
    rw [joinQueue_snd, joinQueueCore_success hx h1 hu]
  set S1 := joinedState x userId srv1 t1 s with hS1def
  have hu1 : findUser S1 userId =
      some (updFlag userId true (some x) (updFlag userId false none u0)) := by
    show (setFlags (setFlags s.users userId false none) userId
      true (some x)).find? (fun u => u.id == userId) = _
    rw [findUser_setFlags, findUser_setFlags]
    have hu' : s.users.find? (fun u => u.id == userId) = some u0 := hu
    rw [hu']
    rfl
  have hy1 : findBarber S1 y = some bY := hy
  have hjoin2 : joinQueueCore y userId srv2 t2 S1 =
      (.ok (joinEntry y userId srv2 t2 S1), joinedState y userId srv2 t2 S1) :=
    joinQueueCore_success hy1 h2 hu1
  set S2 := joinedState y userId srv2 t2 S1 with hS2def
  have hs2 : rejoinState x y userId srv1 srv2 t1 t2 s = S2 := by
    unfold rejoinState
    rw [joinQueue_snd, hs1, hjoin2]
  rw [hs2]
  have hfilter : S1.entries.filter (fun e => e.userId != userId) =
      s.entries.filter (fun e => e.userId != userId) := by
    show (s.entries.filter (fun e => e.userId != userId) ++
      [joinEntry x userId srv1 t1 s]).filter (fun e => e.userId != userId) = _
    rw [List.filter_append]
    have hA : (s.entries.filter (fun e => e.userId != userId)).filter
        (fun e => e.userId != userId) =
        s.entries.filter (fun e => e.userId != userId) := by
      rw [List.filter_eq_self]
      intro a ha
      have ha2 := List.of_mem_filter ha
      exact ha2
    have hB : ([joinEntry x userId srv1 t1 s] : List QueueEntry).filter
        (fun e => e.userId != userId) = [] := by
      simp [joinEntry]
    rw [hA, hB, List.append_nil]
  have hS2e : S2.entries = s.entries.filter (fun e => e.userId != userId) ++
      [joinEntry y userId srv2 t2 S1] := by
    show S1.entries.filter (fun e => e.userId != userId) ++
      [joinEntry y userId srv2 t2 S1] = _
    rw [hfilter]
  have ht' : ∀ e ∈ s.entries.filter (fun e2 => e2.userId != userId),
      e.enteredAt ≤ t2 := by
    intro e he
    apply ht
    rw [hs1]
    show e ∈ s.entries.filter (fun e2 => e2.userId != userId) ++
      [joinEntry x userId srv1 t1 s]
    exact List.mem_append.mpr (Or.inl he)
  refine ⟨joinEntry y userId srv2 t2 S1, rfl, rfl, rfl, ?_, ?_, ?_, ?_⟩
  · rw [hS2e, List.filter_append]
    have hA : (s.entries.filter (fun e => e.userId != userId)).filter
        (fun e => e.userId == userId) = [] := by
      rw [List.filter_eq_nil_iff]
      intro a ha
      have := List.of_mem_filter ha
      simpa using this
    have hB : ([joinEntry y userId srv2 t2 S1] : List QueueEntry).filter
        (fun e => e.userId == userId) = [joinEntry y userId srv2 t2 S1] := by
      simp [joinEntry]
    rw [hA, hB, List.nil_append]
  · have hfy : S2.entries.filter (fun e => e.barberId == y) =
        (s.entries.filter (fun e2 => e2.userId != userId)).filter
          (fun e => e.barberId == y) ++ [joinEntry y userId srv2 t2 S1] := by
      rw [hS2e, List.filter_append]
      have hB : ([joinEntry y userId srv2 t2 S1] : List QueueEntry).filter
          (fun e => e.barberId == y) = [joinEntry y userId srv2 t2 S1] := by
        simp [joinEntry]
      rw [hB]
    refine ⟨sortQueue ((s.entries.filter (fun e2 => e2.userId != userId)).filter
      (fun e => e.barberId == y)) ++ [joinEntry y userId srv2 t2 S1], ?_, ?_⟩
    · unfold getQueue getQueueCore
      rw [show findBarber S2 y = some bY from hy]
      dsimp only
      rw [hfy, sortQueue_append_max
        (fun e he => ht' e (List.mem_of_mem_filter he))]
      rfl
    · exact List.getLast?_concat _
  · have hfx : S2.entries.filter (fun e => e.barberId == x) =
        (s.entries.filter (fun e2 => e2.userId != userId)).filter
          (fun e => e.barberId == x) := by
      rw [hS2e, List.filter_append]
      have hB : ([joinEntry y userId srv2 t2 S1] : List QueueEntry).filter
          (fun e => e.barberId == x) = [] := by
        simp only [List.filter_cons, List.filter_nil]
        have hfalse : (((joinEntry y userId srv2 t2 S1).barberId == x) : Bool) = false := by
          simpa [joinEntry] using Ne.symm hxy
        rw [hfalse]
        rfl
      rw [hB, List.append_nil]
    refine ⟨sortQueue ((s.entries.filter (fun e2 => e2.userId != userId)).filter
      (fun e => e.barberId == x)), ?_, ?_⟩
    · unfold getQueue getQueueCore
      rw [show findBarber S2 x = some bx from hx]
      dsimp only
      rw [hfx]
      rfl
    · intro e he
      have hmem := sortQueue_mem.mp he
      have := List.of_mem_filter (List.mem_of_mem_filter hmem)
      simpa using this
  · have hu2 : findUser S2 userId =
        some (updFlag userId true (some y) (updFlag userId false none
          (updFlag userId true (some x) (updFlag userId false none u0)))) := by
      show (setFlags (setFlags S1.users userId false none) userId
        true (some y)).find? (fun u => u.id == userId) = _
      rw [findUser_setFlags, findUser_setFlags]
      have hu1' : S1.users.find? (fun u => u.id == userId) =
          some (updFlag userId true (some x) (updFlag userId false none u0)) := hu1
      rw [hu1']
      rfl
    have hu2eq : updFlag userId true (some y) (updFlag userId false none
        (updFlag userId true (some x) (updFlag userId false none u0))) =
        { u0 with inQueue := true, queuedBarberId := some y } := by
      rw [updFlag_updFlag hu0id]
      rw [updFlag_updFlag
        (u := { u0 with inQueue := true, queuedBarberId := some x }) hu0id]
    rw [hu2eq] at hu2
    have hfind : S2.entries.find? (fun e2 => e2.userId == userId) =
        some (joinEntry y userId srv2 t2 S1) := by
      rw [hS2e, List.find?_append]
      have hA : (s.entries.filter (fun e => e.userId != userId)).find?
          (fun e2 => e2.userId == userId) = none := by
        rw [List.find?_eq_none]
        intro a ha
        have := List.of_mem_filter ha
        simpa using this
      rw [hA]
      simp [joinEntry]
    have hfb2 : findBarber S2 (joinEntry y userId srv2 t2 S1).barberId =
        some bY := hy
    refine ⟨{ inQueue := true,
              position := some ((S2.entries.filter (fun e2 =>
                e2.barberId == y && e2.enteredAt < t2)).length + 1),
              barberId := some bY.id, barberName := some bY.name,
              estimatedWait := some ((S2.entries.filter (fun e2 =>
                e2.barberId == y && e2.enteredAt < t2)).length * 15),
              service := some srv2, enteredAt := some t2 }, ?_, rfl, ?_⟩
    · unfold getUserQueueStatus getUserQueueStatusCore
      rw [hu2]
      dsimp only
      rw [hfind]
      dsimp only
      rw [hfb2]
      rfl
    · show some bY.id = some y
      rw [hbYid]

/-- Witness for C3: in the two-barber state `sTwo`, customer 1 joins barber 1
and then barber 2. -/
theorem claim3_witness :
    ∃ n : QueueEntry, n.barberId = 2 ∧ n.userId = 1 ∧ n.enteredAt = 9 ∧
      (rejoinState 1 2 1 "haircut" "beard" 7 9 sTwo).entries.filter
        (fun e => e.userId == 1) = [n] ∧
      (∃ ly, getQueue 2 (rejoinState 1 2 1 "haircut" "beard" 7 9 sTwo) = .ok ly ∧
        ly.getLast? = some n) ∧
      (∃ lx, getQueue 1 (rejoinState 1 2 1 "haircut" "beard" 7 9 sTwo) = .ok lx ∧
        ∀ e ∈ lx, e.userId ≠ 1) ∧
      (∃ r : StatusResult,
        getUserQueueStatus 1 (rejoinState 1 2 1 "haircut" "beard" 7 9 sTwo) =
          .ok r ∧ r.inQueue = true ∧ r.barberId = some 2) :=
  claim3_rejoin_switches sTwo reach_sTwo 1 2 1 "haircut" "beard" 7 9
    (by decide)
    { id := 1, name := "B1", username := "b1", lat := 0, long := 0 } rfl
    { id := 2, name := "B2", username := "b2", lat := 0, long := 0 } rfl
    { id := 1, name := "U1", phoneNumber := "p1", inQueue := false,
      queuedBarberId := none } rfl
    (by decide) (by decide) (by decide)

end NextCut
